import Mathlib

/-!
# Verification of the DaVi public data visualizer (SPA front end)

Shallow embedding of the parts of the source that the specification's claims
are about:

* `apps/spa/src/lib/codec.ts` — the base64url identifier codec (`uriToId`,
  `idToUri`).  JavaScript strings are modelled as lists of Unicode scalar
  values (`List Nat`); the platform primitives `btoa`, `atob`,
  `encodeURIComponent`/`unescape` (UTF-8 byte conversion) are embedded as
  executable Lean functions.
* `apps/spa/src/extensions/registry` — the extension registry
  (`registerExtension`, `getExtensions`).
* `apps/spa/src/lib/api.ts` — the API client request functions.
* The `SearchPage` and `CategoryPage` fetch effects, the `cancelled`-flag
  cancellation pattern, the `CategoryMap` layout computation and the
  `TypeFacets` request construction.
-/

/-! ## Unicode / UTF-8 layer (platform primitives used by `codec.ts`) -/

/-- Unicode scalar value: a code point that a well-formed JavaScript string can
denote once surrogate pairs are combined (what `encodeURIComponent` accepts
without throwing). -/
def ValidCP (c : Nat) : Prop := c < 1114112 ∧ ¬(55296 ≤ c ∧ c ≤ 57343)

instance : DecidablePred ValidCP := fun c => by unfold ValidCP; infer_instance

/-- UTF-8 bytes of one code point; models what
`unescape(encodeURIComponent(s))` contributes for that character of `s` in
`codec.ts` (that composition yields the UTF-8 bytes of the string). -/
def utf8EncodeChar (c : Nat) : List Nat :=
  if c < 128 then [c]
  else if c < 2048 then [192 + c / 64, 128 + c % 64]
  else if c < 65536 then [224 + c / 4096, 128 + c / 64 % 64, 128 + c % 64]
  else [240 + c / 262144, 128 + c / 4096 % 64, 128 + c / 64 % 64, 128 + c % 64]

/-- UTF-8 bytes of a whole string (`unescape(encodeURIComponent(uri))`). -/
def utf8Encode (s : List Nat) : List Nat := s.flatMap utf8EncodeChar

/-- Decode one UTF-8 character from the front of a byte list, returning the
code point and the remaining bytes; rejects continuation-byte errors, overlong
forms, surrogates and out-of-range values, as `decodeURIComponent` does. -/
def utf8DecodeChar1 : List Nat → Option (Nat × List Nat)
  | [] => none
  | b :: rest =>
    if b < 128 then some (b, rest)
    else if b < 192 then none
    else if b < 224 then
      match rest with
      | b1 :: r =>
        if b1 / 64 = 2 then
          if 128 ≤ (b - 192) * 64 + (b1 - 128) then
            some ((b - 192) * 64 + (b1 - 128), r)
          else none
        else none
      | [] => none
    else if b < 240 then
      match rest with
      | b1 :: b2 :: r =>
        if b1 / 64 = 2 ∧ b2 / 64 = 2 then
          if 2048 ≤ (b - 224) * 4096 + (b1 - 128) * 64 + (b2 - 128) ∧
              ¬(55296 ≤ (b - 224) * 4096 + (b1 - 128) * 64 + (b2 - 128) ∧
                (b - 224) * 4096 + (b1 - 128) * 64 + (b2 - 128) ≤ 57343) then
            some ((b - 224) * 4096 + (b1 - 128) * 64 + (b2 - 128), r)
          else none
        else none
      | _ => none
    else if b < 248 then
      match rest with
      | b1 :: b2 :: b3 :: r =>
        if b1 / 64 = 2 ∧ b2 / 64 = 2 ∧ b3 / 64 = 2 then
          if 65536 ≤ (b - 240) * 262144 + (b1 - 128) * 4096 + (b2 - 128) * 64 + (b3 - 128) ∧
              (b - 240) * 262144 + (b1 - 128) * 4096 + (b2 - 128) * 64 + (b3 - 128) < 1114112 then
            some ((b - 240) * 262144 + (b1 - 128) * 4096 + (b2 - 128) * 64 + (b3 - 128), r)
          else none
        else none
      | _ => none
    else none

/-- Decoding loop; the fuel argument only serves termination and is always
sufficient, because every decoded character consumes at least one byte. -/
def utf8DecodeAux : Nat → List Nat → Option (List Nat)
  | _, [] => some []
  | 0, _ :: _ => none
  | fuel + 1, b :: rest =>
    match utf8DecodeChar1 (b :: rest) with
    | none => none
    | some (c, r) => (utf8DecodeAux fuel r).map (c :: ·)

/-- UTF-8 decoder for a byte list; models `decodeURIComponent(escape(bytes))`
in `codec.ts` (that composition performs a strict UTF-8 decode), with `none`
for the thrown `URIError`. -/
def utf8Decode (l : List Nat) : Option (List Nat) := utf8DecodeAux l.length l

/-! ## Base64 layer (platform `btoa` / `atob` used by `codec.ts`) -/

/-- Character code of a base64 digit (the standard `btoa` alphabet:
`A-Z a-z 0-9 + /`). -/
def b64Char (s : Nat) : Nat :=
  if s < 26 then 65 + s
  else if s < 52 then 97 + (s - 26)
  else if s < 62 then 48 + (s - 52)
  else if s = 62 then 43
  else 47

/-- Platform `btoa`: standard base64 of a byte list, `=`-padded (61 is the
character code of `=`). -/
def btoa : List Nat → List Nat
  | [] => []
  | [a] => [b64Char (a / 4), b64Char (a % 4 * 16), 61, 61]
  | [a, b] => [b64Char (a / 4), b64Char (a % 4 * 16 + b / 16), b64Char (b % 16 * 4), 61]
  | a :: b :: c :: rest =>
    b64Char (a / 4) :: b64Char (a % 4 * 16 + b / 16) :: b64Char (b % 16 * 4 + c / 64) ::
      b64Char (c % 64) :: btoa rest

/-- Value of a base64 digit character, `none` for a character outside the
alphabet (such as `=`). -/
def b64Val (ch : Nat) : Option Nat :=
  if 65 ≤ ch ∧ ch ≤ 90 then some (ch - 65)
  else if 97 ≤ ch ∧ ch ≤ 122 then some (ch - 97 + 26)
  else if 48 ≤ ch ∧ ch ≤ 57 then some (ch - 48 + 52)
  else if ch = 43 then some 62
  else if ch = 47 then some 63
  else none

/-- Platform `atob`: base64 decode of a padded base64 string, `none` for the
thrown `InvalidCharacterError`. -/
def atob : List Nat → Option (List Nat)
  | [] => some []
  | c1 :: c2 :: c3 :: c4 :: rest =>
    match b64Val c1, b64Val c2 with
    | some s1, some s2 =>
      if c3 = 61 ∧ c4 = 61 ∧ rest = [] then some [s1 * 4 + s2 / 16]
      else if c4 = 61 ∧ rest = [] then
        match b64Val c3 with
        | some s3 => some [s1 * 4 + s2 / 16, s2 % 16 * 16 + s3 / 4]
        | none => none
      else
        match b64Val c3, b64Val c4 with
        | some s3, some s4 =>
          (atob rest).map fun bs =>
            (s1 * 4 + s2 / 16) :: (s2 % 16 * 16 + s3 / 4) :: (s3 % 4 * 64 + s4) :: bs
        | _, _ => none
    | _, _ => none
  | _ => none

/-! ## The identifier codec (`apps/spa/src/lib/codec.ts`) -/

/-- Global single-character replacement, modelling
`str.replace(/x/g, "y")` for one-character patterns. -/
def replaceChar (a b : Nat) (l : List Nat) : List Nat :=
  l.map fun c => if c = a then b else c

/-- Remove the trailing run of `=` characters, modelling
`.replace(/=+$/g, "")` (61 is `=`). -/
def stripTrailingEq (l : List Nat) : List Nat :=
  (l.reverse.dropWhile (fun c => c = 61)).reverse

/-- One `b64 += "="` iteration of the padding loop in `idToUri`, with fuel. -/
def padEqAux : Nat → List Nat → List Nat
  | 0, l => l
  | k + 1, l => if l.length % 4 = 0 then l else padEqAux k (l ++ [61])

/-- The `while (b64.length % 4 !== 0) b64 += "="` loop of `idToUri`; three
iterations always suffice because each append raises the length by one. -/
def padEq (l : List Nat) : List Nat := padEqAux 3 l

/-- `uriToId` from `codec.ts`: UTF-8 encode, `btoa`, make the alphabet
URL-safe (`+`→`-` i.e. 43→45, `/`→`_` i.e. 47→95), strip `=` padding. -/
def uriToId (uri : List Nat) : List Nat :=
  stripTrailingEq (replaceChar 47 95 (replaceChar 43 45 (btoa (utf8Encode uri))))

/-- `idToUri` from `codec.ts`: undo the URL-safe replacements (`-`→`+`,
`_`→`/`), restore `=` padding, `atob`, UTF-8 decode; `none` models the
exception thrown on malformed input. -/
def idToUri (id : List Nat) : Option (List Nat) :=
  match atob (padEq (replaceChar 95 47 (replaceChar 45 43 id))) with
  | none => none
  | some bytes => utf8Decode bytes

/-- Characters that need no percent-escaping in a URL path segment and carry
no base64 padding: the base64url alphabet `A-Z a-z 0-9 - _`. -/
def isBase64UrlChar (c : Nat) : Bool :=
  (65 ≤ c && c ≤ 90) || (97 ≤ c && c ≤ 122) || (48 ≤ c && c ≤ 57) || c = 45 || c = 95

/-! ## UTF-8 round-trip lemmas -/

theorem utf8EncodeChar_ne_nil (c : Nat) : utf8EncodeChar c ≠ [] := by
  unfold utf8EncodeChar
  split
  · simp
  · split
    · simp
    · split <;> simp

theorem utf8EncodeChar_lt (c : Nat) (h : c < 1114112) :
    ∀ b ∈ utf8EncodeChar c, b < 256 := by
  unfold utf8EncodeChar
  split
  · intro b hb; simp at hb; omega
  · split
    · intro b hb; simp at hb; rcases hb with hb | hb <;> omega
    · split
      · intro b hb; simp at hb; rcases hb with hb | hb | hb <;> omega
      · intro b hb; simp at hb; rcases hb with hb | hb | hb | hb <;> omega

theorem utf8Encode_lt (s : List Nat) (h : ∀ c ∈ s, c < 1114112) :
    ∀ b ∈ utf8Encode s, b < 256 := by
  intro b hb
  unfold utf8Encode at hb
  rw [List.mem_flatMap] at hb
  obtain ⟨c, hc, hbc⟩ := hb
  exact utf8EncodeChar_lt c (h c hc) b hbc

theorem utf8DecodeChar1_encodeChar (c : Nat) (h1 : c < 1114112)
    (h2 : ¬(55296 ≤ c ∧ c ≤ 57343)) (rest : List Nat) :
    utf8DecodeChar1 (utf8EncodeChar c ++ rest) = some (c, rest) := by
  by_cases hc1 : c < 128
  · simp [utf8EncodeChar, utf8DecodeChar1, hc1]
  · by_cases hc2 : c < 2048
    · have e1 : utf8EncodeChar c = [192 + c / 64, 128 + c % 64] := by
        simp [utf8EncodeChar, hc1, hc2]
      rw [e1, List.cons_append, List.cons_append, List.nil_append]
      have d1 : ¬(192 + c / 64 < 128) := by omega
      have d2 : ¬(192 + c / 64 < 192) := by omega
      have d3 : 192 + c / 64 < 224 := by omega
      have d4 : (128 + c % 64) / 64 = 2 := by omega
      simp only [utf8DecodeChar1, if_neg d1, if_neg d2, if_pos d3, if_pos d4]
      have e2 : (192 + c / 64 - 192) * 64 + (128 + c % 64 - 128) = c := by omega
      rw [e2, if_pos (by omega)]
    · by_cases hc3 : c < 65536
      · have e1 : utf8EncodeChar c =
            [224 + c / 4096, 128 + c / 64 % 64, 128 + c % 64] := by
          simp [utf8EncodeChar, hc1, hc2, hc3]
        rw [e1]
        simp only [List.cons_append, List.nil_append]
        have d1 : ¬(224 + c / 4096 < 128) := by omega
        have d2 : ¬(224 + c / 4096 < 192) := by omega
        have d3 : ¬(224 + c / 4096 < 224) := by omega
        have d4 : 224 + c / 4096 < 240 := by omega
        have d5 : (128 + c / 64 % 64) / 64 = 2 ∧ (128 + c % 64) / 64 = 2 := by omega
        simp only [utf8DecodeChar1, if_neg d1, if_neg d2, if_neg d3, if_pos d4, if_pos d5]
        have e2 : (224 + c / 4096 - 224) * 4096 + (128 + c / 64 % 64 - 128) * 64 +
            (128 + c % 64 - 128) = c := by omega
        rw [e2, if_pos ⟨by omega, h2⟩]
      · have e1 : utf8EncodeChar c =
            [240 + c / 262144, 128 + c / 4096 % 64, 128 + c / 64 % 64, 128 + c % 64] := by
          simp [utf8EncodeChar, hc1, hc2, hc3]
        rw [e1]
        simp only [List.cons_append, List.nil_append]
        have d1 : ¬(240 + c / 262144 < 128) := by omega
        have d2 : ¬(240 + c / 262144 < 192) := by omega
        have d3 : ¬(240 + c / 262144 < 224) := by omega
        have d4 : ¬(240 + c / 262144 < 240) := by omega
        have d5 : 240 + c / 262144 < 248 := by omega
        have d6 : (128 + c / 4096 % 64) / 64 = 2 ∧ (128 + c / 64 % 64) / 64 = 2 ∧
            (128 + c % 64) / 64 = 2 := by omega
        simp only [utf8DecodeChar1, if_neg d1, if_neg d2, if_neg d3, if_neg d4, if_pos d5,
          if_pos d6]
        have e2 : (240 + c / 262144 - 240) * 262144 + (128 + c / 4096 % 64 - 128) * 4096 +
            (128 + c / 64 % 64 - 128) * 64 + (128 + c % 64 - 128) = c := by omega
        rw [e2, if_pos ⟨by omega, h1⟩]

theorem utf8DecodeAux_encode (s : List Nat) (hv : ∀ c ∈ s, ValidCP c) :
    ∀ fuel, (utf8Encode s).length ≤ fuel → utf8DecodeAux fuel (utf8Encode s) = some s := by
  induction s with
  | nil => intro fuel _; simp [utf8Encode, utf8DecodeAux]
  | cons c tl ih =>
    intro fuel hfuel
    have hc : c < 1114112 ∧ ¬(55296 ≤ c ∧ c ≤ 57343) := hv c (by simp)
    have e1 : utf8Encode (c :: tl) = utf8EncodeChar c ++ utf8Encode tl := by
      simp [utf8Encode]
    rw [e1] at hfuel ⊢
    obtain ⟨b, bs, hb⟩ := List.exists_cons_of_ne_nil (utf8EncodeChar_ne_nil c)
    obtain ⟨fuel', rfl⟩ : ∃ f, fuel = f + 1 := by
      cases fuel with
      | zero => rw [hb] at hfuel; simp at hfuel
      | succ f => exact ⟨f, rfl⟩
    have hdec := utf8DecodeChar1_encodeChar c hc.1 hc.2 (utf8Encode tl)
    rw [hb, List.cons_append] at hdec ⊢
    simp only [utf8DecodeAux, hdec]
    rw [ih (fun x hx => hv x (by simp [hx])) fuel' (by
      rw [hb] at hfuel
      simp only [List.cons_append, List.length_cons, List.length_append] at hfuel
      omega)]
    rfl

theorem utf8Decode_encode (s : List Nat) (hv : ∀ c ∈ s, ValidCP c) :
    utf8Decode (utf8Encode s) = some s :=
  utf8DecodeAux_encode s hv _ le_rfl

/-! ## Base64 round-trip lemmas -/

theorem b64Char_ne_61 (s : Nat) : b64Char s ≠ 61 := by
  unfold b64Char
  split
  · omega
  · split
    · omega
    · split
      · omega
      · split <;> omega

theorem b64Val_b64Char : ∀ s, s < 64 → b64Val (b64Char s) = some s := by decide


theorem btoa_ne_nil : ∀ l : List Nat, l ≠ [] → btoa l ≠ []
  | [], h => absurd rfl h
  | [a], _ => by simp [btoa]
  | [a, b], _ => by simp [btoa]
  | a :: b :: c :: rest, _ => by
    rw [show btoa (a :: b :: c :: rest) = b64Char (a / 4) :: b64Char (a % 4 * 16 + b / 16) ::
      b64Char (b % 16 * 4 + c / 64) :: b64Char (c % 64) :: btoa rest from rfl]
    simp

theorem atob_btoa : ∀ bytes : List Nat, (∀ b ∈ bytes, b < 256) → atob (btoa bytes) = some bytes
  | [], _ => rfl
  | [a], h => by
    have ha : a < 256 := h a (by simp)
    rw [show btoa [a] = [b64Char (a / 4), b64Char (a % 4 * 16), 61, 61] from rfl]
    rw [show atob [b64Char (a / 4), b64Char (a % 4 * 16), 61, 61] =
        (match b64Val (b64Char (a / 4)), b64Val (b64Char (a % 4 * 16)) with
         | some s1, some s2 => some [s1 * 4 + s2 / 16]
         | _, _ => none) from by
      simp only [atob]
      rcases b64Val (b64Char (a / 4)) with _ | s1 <;>
        rcases b64Val (b64Char (a % 4 * 16)) with _ | s2 <;> simp]
    rw [b64Val_b64Char (a / 4) (by omega), b64Val_b64Char (a % 4 * 16) (by omega)]
    show some [a / 4 * 4 + a % 4 * 16 / 16] = some [a]
    rw [show a / 4 * 4 + a % 4 * 16 / 16 = a from by omega]
  | [a, b], h => by
    have ha : a < 256 := h a (by simp)
    have hb : b < 256 := h b (by simp)
    have h3 := b64Char_ne_61 (b % 16 * 4)
    rw [show btoa [a, b] =
        [b64Char (a / 4), b64Char (a % 4 * 16 + b / 16), b64Char (b % 16 * 4), 61] from rfl]
    rw [show atob [b64Char (a / 4), b64Char (a % 4 * 16 + b / 16), b64Char (b % 16 * 4), 61] =
        (match b64Val (b64Char (a / 4)), b64Val (b64Char (a % 4 * 16 + b / 16)),
            b64Val (b64Char (b % 16 * 4)) with
         | some s1, some s2, some s3 => some [s1 * 4 + s2 / 16, s2 % 16 * 16 + s3 / 4]
         | _, _, _ => none) from by
      simp only [atob]
      rcases b64Val (b64Char (a / 4)) with _ | s1 <;>
        rcases b64Val (b64Char (a % 4 * 16 + b / 16)) with _ | s2 <;>
          rcases b64Val (b64Char (b % 16 * 4)) with _ | s3 <;> simp [h3]]
    rw [b64Val_b64Char (a / 4) (by omega), b64Val_b64Char (a % 4 * 16 + b / 16) (by omega),
      b64Val_b64Char (b % 16 * 4) (by omega)]
    show some [a / 4 * 4 + (a % 4 * 16 + b / 16) / 16,
      (a % 4 * 16 + b / 16) % 16 * 16 + b % 16 * 4 / 4] = some [a, b]
    simp only [Option.some.injEq, List.cons.injEq, and_true]
    constructor <;> omega
  | [a, b, c], h => by
    have ha : a < 256 := h a (by simp)
    have hb : b < 256 := h b (by simp)
    have hc : c < 256 := h c (by simp)
    have h3 := b64Char_ne_61 (b % 16 * 4 + c / 64)
    have h4 := b64Char_ne_61 (c % 64)
    rw [show btoa [a, b, c] = [b64Char (a / 4), b64Char (a % 4 * 16 + b / 16),
        b64Char (b % 16 * 4 + c / 64), b64Char (c % 64)] from rfl]
    rw [show atob [b64Char (a / 4), b64Char (a % 4 * 16 + b / 16),
        b64Char (b % 16 * 4 + c / 64), b64Char (c % 64)] =
        (match b64Val (b64Char (a / 4)), b64Val (b64Char (a % 4 * 16 + b / 16)),
            b64Val (b64Char (b % 16 * 4 + c / 64)), b64Val (b64Char (c % 64)) with
         | some s1, some s2, some s3, some s4 =>
           some [s1 * 4 + s2 / 16, s2 % 16 * 16 + s3 / 4, s3 % 4 * 64 + s4]
         | _, _, _, _ => none) from by
      simp only [atob]
      rcases b64Val (b64Char (a / 4)) with _ | s1 <;>
        rcases b64Val (b64Char (a % 4 * 16 + b / 16)) with _ | s2 <;>
          rcases b64Val (b64Char (b % 16 * 4 + c / 64)) with _ | s3 <;>
            rcases b64Val (b64Char (c % 64)) with _ | s4 <;> simp [h3, h4, atob]]
    rw [b64Val_b64Char (a / 4) (by omega), b64Val_b64Char (a % 4 * 16 + b / 16) (by omega),
      b64Val_b64Char (b % 16 * 4 + c / 64) (by omega), b64Val_b64Char (c % 64) (by omega)]
    show some [a / 4 * 4 + (a % 4 * 16 + b / 16) / 16,
      (a % 4 * 16 + b / 16) % 16 * 16 + (b % 16 * 4 + c / 64) / 4,
      (b % 16 * 4 + c / 64) % 4 * 64 + c % 64] = some [a, b, c]
    simp only [Option.some.injEq, List.cons.injEq, and_true]
    refine ⟨by omega, by omega, by omega⟩
  | a :: b :: c :: d :: rest, h => by
    have ha : a < 256 := h a (by simp)
    have hb : b < 256 := h b (by simp)
    have hc : c < 256 := h c (by simp)
    have h3 := b64Char_ne_61 (b % 16 * 4 + c / 64)
    have h4 := b64Char_ne_61 (c % 64)
    have ih := atob_btoa (d :: rest) (fun x hx => h x (by simp_all))
    have hne : btoa (d :: rest) ≠ [] := btoa_ne_nil (d :: rest) (by simp)
    rw [show btoa (a :: b :: c :: d :: rest) =
        b64Char (a / 4) :: b64Char (a % 4 * 16 + b / 16) :: b64Char (b % 16 * 4 + c / 64) ::
          b64Char (c % 64) :: btoa (d :: rest) from rfl]
    rw [show atob (b64Char (a / 4) :: b64Char (a % 4 * 16 + b / 16) ::
          b64Char (b % 16 * 4 + c / 64) :: b64Char (c % 64) :: btoa (d :: rest)) =
        (match b64Val (b64Char (a / 4)), b64Val (b64Char (a % 4 * 16 + b / 16)),
            b64Val (b64Char (b % 16 * 4 + c / 64)), b64Val (b64Char (c % 64)) with
         | some s1, some s2, some s3, some s4 =>
           (atob (btoa (d :: rest))).map fun bs =>
             (s1 * 4 + s2 / 16) :: (s2 % 16 * 16 + s3 / 4) :: (s3 % 4 * 64 + s4) :: bs
         | _, _, _, _ => none) from by
      simp only [atob]
      rcases b64Val (b64Char (a / 4)) with _ | s1 <;>
        rcases b64Val (b64Char (a % 4 * 16 + b / 16)) with _ | s2 <;>
          rcases b64Val (b64Char (b % 16 * 4 + c / 64)) with _ | s3 <;>
            rcases b64Val (b64Char (c % 64)) with _ | s4 <;> simp [h3, h4, hne]]
    rw [b64Val_b64Char (a / 4) (by omega), b64Val_b64Char (a % 4 * 16 + b / 16) (by omega),
      b64Val_b64Char (b % 16 * 4 + c / 64) (by omega), b64Val_b64Char (c % 64) (by omega)]
    rw [ih]
    show some ((a / 4 * 4 + (a % 4 * 16 + b / 16) / 16) ::
      ((a % 4 * 16 + b / 16) % 16 * 16 + (b % 16 * 4 + c / 64) / 4) ::
      ((b % 16 * 4 + c / 64) % 4 * 64 + c % 64) :: d :: rest) =
      some (a :: b :: c :: d :: rest)
    simp only [Option.some.injEq, List.cons.injEq, and_true, and_self]
    refine ⟨by omega, by omega, by omega⟩

/-! ## Padding-strip / re-pad lemmas -/

theorem stripTrailingEq_append_eq (l : List Nat) :
    stripTrailingEq (l ++ [61]) = stripTrailingEq l := by
  unfold stripTrailingEq
  rw [List.reverse_append]
  simp [List.dropWhile_cons]

theorem stripTrailingEq_append_last (l : List Nat) (x : Nat) (hx : x ≠ 61) :
    stripTrailingEq (l ++ [x]) = l ++ [x] := by
  unfold stripTrailingEq
  rw [List.reverse_append]
  simp [List.dropWhile_cons, hx]

theorem stripTrailingEq_append_ne (xs ys : List Nat) (h : stripTrailingEq ys ≠ []) :
    stripTrailingEq (xs ++ ys) = xs ++ stripTrailingEq ys := by
  unfold stripTrailingEq at *
  rw [List.reverse_append, List.dropWhile_append]
  have he : (ys.reverse.dropWhile (fun c => c = 61)).isEmpty = false := by
    cases hys : ys.reverse.dropWhile (fun c => c = 61) with
    | nil => exact absurd (by rw [hys]; rfl) h
    | cons a t => rfl
  rw [he]
  simp [List.reverse_append]

theorem mem_stripTrailingEq (l : List Nat) (ch : Nat) (h : ch ∈ stripTrailingEq l) : ch ∈ l := by
  unfold stripTrailingEq at h
  rw [List.mem_reverse] at h
  rw [← List.mem_reverse]
  exact (List.dropWhile_suffix (fun c => c = 61)).subset h

theorem padEqAux_append (k : Nat) (xs : List Nat) (h : xs.length % 4 = 0) :
    ∀ w, padEqAux k (xs ++ w) = xs ++ padEqAux k w := by
  induction k with
  | zero => intro w; rfl
  | succ n ih =>
    intro w
    simp only [padEqAux, List.length_append]
    have hc : (xs.length + w.length) % 4 = w.length % 4 := by omega
    rw [hc]
    by_cases hw : w.length % 4 = 0
    · simp [hw]
    · rw [if_neg hw, if_neg hw, List.append_assoc]
      exact ih (w ++ [61])

/-! ## Structure of `btoa` output under strip / pad -/

theorem stripTrailingEq_btoa_one (a : Nat) :
    stripTrailingEq (btoa [a]) = [b64Char (a / 4), b64Char (a % 4 * 16)] := by
  rw [show btoa [a] = ([b64Char (a / 4), b64Char (a % 4 * 16), 61] ++ [61]) from rfl]
  rw [stripTrailingEq_append_eq]
  rw [show ([b64Char (a / 4), b64Char (a % 4 * 16), 61] : List Nat) =
    [b64Char (a / 4), b64Char (a % 4 * 16)] ++ [61] from rfl]
  rw [stripTrailingEq_append_eq]
  rw [show ([b64Char (a / 4), b64Char (a % 4 * 16)] : List Nat) =
    [b64Char (a / 4)] ++ [b64Char (a % 4 * 16)] from rfl]
  rw [stripTrailingEq_append_last _ _ (b64Char_ne_61 (a % 4 * 16))]

theorem stripTrailingEq_btoa_two (a b : Nat) :
    stripTrailingEq (btoa [a, b]) =
      [b64Char (a / 4), b64Char (a % 4 * 16 + b / 16), b64Char (b % 16 * 4)] := by
  rw [show btoa [a, b] = ([b64Char (a / 4), b64Char (a % 4 * 16 + b / 16),
    b64Char (b % 16 * 4)] ++ [61]) from rfl]
  rw [stripTrailingEq_append_eq]
  rw [show ([b64Char (a / 4), b64Char (a % 4 * 16 + b / 16), b64Char (b % 16 * 4)] : List Nat) =
    [b64Char (a / 4), b64Char (a % 4 * 16 + b / 16)] ++ [b64Char (b % 16 * 4)] from rfl]
  rw [stripTrailingEq_append_last _ _ (b64Char_ne_61 (b % 16 * 4))]

theorem stripTrailingEq_btoa_three (a b c : Nat) :
    stripTrailingEq (btoa [a, b, c]) = btoa [a, b, c] := by
  rw [show btoa [a, b, c] = [b64Char (a / 4), b64Char (a % 4 * 16 + b / 16),
    b64Char (b % 16 * 4 + c / 64)] ++ [b64Char (c % 64)] from rfl]
  rw [stripTrailingEq_append_last _ _ (b64Char_ne_61 (c % 64))]

theorem stripTrailingEq_btoa_ne_nil : ∀ bytes : List Nat, bytes ≠ [] →
    stripTrailingEq (btoa bytes) ≠ []
  | [], h => absurd rfl h
  | [a], _ => by rw [stripTrailingEq_btoa_one]; simp
  | [a, b], _ => by rw [stripTrailingEq_btoa_two]; simp
  | [a, b, c], _ => by rw [stripTrailingEq_btoa_three]; simp [btoa]
  | a :: b :: c :: d :: rest, _ => by
    rw [show btoa (a :: b :: c :: d :: rest) =
      [b64Char (a / 4), b64Char (a % 4 * 16 + b / 16), b64Char (b % 16 * 4 + c / 64),
        b64Char (c % 64)] ++ btoa (d :: rest) from rfl]
    rw [stripTrailingEq_append_ne _ _ (stripTrailingEq_btoa_ne_nil (d :: rest) (by simp))]
    simp

theorem padEq_stripTrailingEq_btoa : ∀ bytes : List Nat,
    padEq (stripTrailingEq (btoa bytes)) = btoa bytes
  | [] => rfl
  | [a] => by rw [stripTrailingEq_btoa_one]; simp [padEq, padEqAux, btoa]
  | [a, b] => by rw [stripTrailingEq_btoa_two]; simp [padEq, padEqAux, btoa]
  | [a, b, c] => by
    rw [stripTrailingEq_btoa_three]
    rw [show btoa [a, b, c] = [b64Char (a / 4), b64Char (a % 4 * 16 + b / 16),
      b64Char (b % 16 * 4 + c / 64), b64Char (c % 64)] from rfl]
    simp [padEq, padEqAux]
  | a :: b :: c :: d :: rest => by
    rw [show btoa (a :: b :: c :: d :: rest) =
      [b64Char (a / 4), b64Char (a % 4 * 16 + b / 16), b64Char (b % 16 * 4 + c / 64),
        b64Char (c % 64)] ++ btoa (d :: rest) from rfl]
    rw [stripTrailingEq_append_ne _ _ (stripTrailingEq_btoa_ne_nil (d :: rest) (by simp))]
    rw [show padEq ([b64Char (a / 4), b64Char (a % 4 * 16 + b / 16),
        b64Char (b % 16 * 4 + c / 64), b64Char (c % 64)] ++
        stripTrailingEq (btoa (d :: rest))) =
      [b64Char (a / 4), b64Char (a % 4 * 16 + b / 16), b64Char (b % 16 * 4 + c / 64),
        b64Char (c % 64)] ++ padEq (stripTrailingEq (btoa (d :: rest))) from
      padEqAux_append 3 _ (by simp) _]
    rw [padEq_stripTrailingEq_btoa (d :: rest)]

/-! ## The URL-safe replacements commute with padding-strip -/

theorem dropWhile61_map (f : Nat → Nat) (hf : ∀ x, f x = 61 ↔ x = 61) :
    ∀ l : List Nat, (l.map f).dropWhile (fun c => c = 61) =
      (l.dropWhile (fun c => c = 61)).map f := by
  intro l
  induction l with
  | nil => rfl
  | cons a t ih =>
    simp only [List.map_cons, List.dropWhile_cons]
    by_cases h : a = 61
    · have hfa : f a = 61 := (hf a).mpr h
      rw [if_pos (by simp [hfa]), if_pos (by simp [h]), ih]
    · have hfa : ¬ f a = 61 := fun hc => h ((hf a).mp hc)
      rw [if_neg (by simp [hfa]), if_neg (by simp [h]), List.map_cons]

theorem stripTrailingEq_replaceChar (a b : Nat) (ha : a ≠ 61) (hb : b ≠ 61) (l : List Nat) :
    stripTrailingEq (replaceChar a b l) = replaceChar a b (stripTrailingEq l) := by
  have hf : ∀ x, (if x = a then b else x) = 61 ↔ x = 61 := by
    intro x
    by_cases hx : x = a <;> simp [hx, ha, hb]
  unfold stripTrailingEq replaceChar
  rw [← List.map_reverse, dropWhile61_map _ hf, ← List.map_reverse]

theorem replaceChar_undo (l : List Nat) (h : ∀ ch ∈ l, ch ≠ 45 ∧ ch ≠ 95) :
    replaceChar 95 47 (replaceChar 45 43 (replaceChar 47 95 (replaceChar 43 45 l))) = l := by
  unfold replaceChar
  simp only [List.map_map]
  rw [List.map_congr_left (g := id) (by
    intro ch hch
    obtain ⟨h45, h95⟩ := h ch hch
    simp only [Function.comp_apply, id_eq]
    split_ifs <;> omega)]
  exact List.map_id l

/-! ## The base64 alphabet is URL-safe -/

/-- Membership in the standard `btoa` alphabet `A-Z a-z 0-9 + /`. -/
def isB64AlphaChar (c : Nat) : Bool :=
  (65 ≤ c && c ≤ 90) || (97 ≤ c && c ≤ 122) || (48 ≤ c && c ≤ 57) || c == 43 || c == 47

theorem b64Char_alpha : ∀ s, s < 64 → isB64AlphaChar (b64Char s) = true := by decide

theorem isB64AlphaChar_ne (ch : Nat) (h : isB64AlphaChar ch = true) :
    ch ≠ 45 ∧ ch ≠ 95 := by
  simp only [isB64AlphaChar, Bool.or_eq_true, Bool.and_eq_true, decide_eq_true_eq,
    beq_iff_eq] at h
  omega

theorem mem_stripTrailingEq_btoa : ∀ bytes : List Nat, (∀ b ∈ bytes, b < 256) →
    ∀ ch ∈ stripTrailingEq (btoa bytes), isB64AlphaChar ch = true
  | [], _ => by intro ch hch; simp [btoa, stripTrailingEq] at hch
  | [a], h => by
    have ha : a < 256 := h a (by simp)
    intro ch hch
    rw [stripTrailingEq_btoa_one] at hch
    rcases (by simpa using hch : ch = b64Char (a / 4) ∨ ch = b64Char (a % 4 * 16)) with
      rfl | rfl
    · exact b64Char_alpha _ (by omega)
    · exact b64Char_alpha _ (by omega)
  | [a, b], h => by
    have ha : a < 256 := h a (by simp)
    have hb : b < 256 := h b (by simp)
    intro ch hch
    rw [stripTrailingEq_btoa_two] at hch
    rcases (by simpa using hch : ch = b64Char (a / 4) ∨ ch = b64Char (a % 4 * 16 + b / 16) ∨
      ch = b64Char (b % 16 * 4)) with rfl | rfl | rfl
    · exact b64Char_alpha _ (by omega)
    · exact b64Char_alpha _ (by omega)
    · exact b64Char_alpha _ (by omega)
  | [a, b, c], h => by
    have ha : a < 256 := h a (by simp)
    have hb : b < 256 := h b (by simp)
    have hc : c < 256 := h c (by simp)
    intro ch hch
    rw [stripTrailingEq_btoa_three] at hch
    rw [show btoa [a, b, c] = [b64Char (a / 4), b64Char (a % 4 * 16 + b / 16),
      b64Char (b % 16 * 4 + c / 64), b64Char (c % 64)] from rfl] at hch
    rcases (by simpa using hch : ch = b64Char (a / 4) ∨ ch = b64Char (a % 4 * 16 + b / 16) ∨
      ch = b64Char (b % 16 * 4 + c / 64) ∨ ch = b64Char (c % 64)) with rfl | rfl | rfl | rfl
    · exact b64Char_alpha _ (by omega)
    · exact b64Char_alpha _ (by omega)
    · exact b64Char_alpha _ (by omega)
    · exact b64Char_alpha _ (by omega)
  | a :: b :: c :: d :: rest, h => by
    have ha : a < 256 := h a (by simp)
    have hb : b < 256 := h b (by simp)
    have hc : c < 256 := h c (by simp)
    intro ch hch
    rw [show btoa (a :: b :: c :: d :: rest) =
      [b64Char (a / 4), b64Char (a % 4 * 16 + b / 16), b64Char (b % 16 * 4 + c / 64),
        b64Char (c % 64)] ++ btoa (d :: rest) from rfl] at hch
    rw [stripTrailingEq_append_ne _ _ (stripTrailingEq_btoa_ne_nil (d :: rest) (by simp))]
      at hch
    rw [List.mem_append] at hch
    rcases hch with hch | hch
    · rcases (by simpa using hch : ch = b64Char (a / 4) ∨ ch = b64Char (a % 4 * 16 + b / 16) ∨
        ch = b64Char (b % 16 * 4 + c / 64) ∨ ch = b64Char (c % 64)) with rfl | rfl | rfl | rfl
      · exact b64Char_alpha _ (by omega)
      · exact b64Char_alpha _ (by omega)
      · exact b64Char_alpha _ (by omega)
      · exact b64Char_alpha _ (by omega)
    · exact mem_stripTrailingEq_btoa (d :: rest) (fun x hx => h x (by simp_all)) ch hch

/-! ## Claims C1 and C8: codec round-trip and URL-safety -/

/-- C1: for every URI (any sequence of Unicode scalar values, covering ASCII,
non-ASCII and path-reserved characters), decoding the identifier produced by
encoding round-trips to the original URI: `idToUri (uriToId uri) = uri`. -/
theorem uriToId_idToUri_roundtrip (uri : List Nat) (hv : ∀ c ∈ uri, ValidCP c) :
    idToUri (uriToId uri) = some uri := by
  have hbytes : ∀ b ∈ utf8Encode uri, b < 256 :=
    utf8Encode_lt uri (fun c hc => (hv c hc).1)
  unfold uriToId idToUri
  rw [stripTrailingEq_replaceChar 47 95 (by omega) (by omega),
    stripTrailingEq_replaceChar 43 45 (by omega) (by omega)]
  rw [replaceChar_undo _ (fun ch hch =>
    isB64AlphaChar_ne ch (mem_stripTrailingEq_btoa (utf8Encode uri) hbytes ch hch))]
  rw [padEq_stripTrailingEq_btoa, atob_btoa _ hbytes]
  exact utf8Decode_encode uri hv

/-- Witness for `uriToId_idToUri_roundtrip` at the concrete URI
"hé😀" (code points 104, 233, 128512 — ASCII, 2-byte and 4-byte UTF-8). -/
theorem uriToId_idToUri_roundtrip_witness :
    (∀ c ∈ [104, 233, 128512], ValidCP c) ∧
      idToUri (uriToId [104, 233, 128512]) = some [104, 233, 128512] :=
  ⟨by decide, uriToId_idToUri_roundtrip [104, 233, 128512] (by decide)⟩

/-- C8: every character of an identifier produced by `uriToId` belongs to the
URL-safe base64url alphabet (letters, digits, `-`, `_`): no character that
needs percent-encoding in a URL path segment, and no `+`, `/` or `=`. -/
theorem uriToId_urlSafe (uri : List Nat) (hv : ∀ c ∈ uri, ValidCP c) :
    ∀ ch ∈ uriToId uri, isBase64UrlChar ch = true := by
  intro ch hch
  have hbytes : ∀ b ∈ utf8Encode uri, b < 256 :=
    utf8Encode_lt uri (fun c hc => (hv c hc).1)
  unfold uriToId at hch
  rw [stripTrailingEq_replaceChar 47 95 (by omega) (by omega),
    stripTrailingEq_replaceChar 43 45 (by omega) (by omega)] at hch
  unfold replaceChar at hch
  simp only [List.map_map, List.mem_map, Function.comp_apply] at hch
  obtain ⟨ch0, hch0, rfl⟩ := hch
  have halpha := mem_stripTrailingEq_btoa (utf8Encode uri) hbytes ch0 hch0
  simp only [isB64AlphaChar, Bool.or_eq_true, Bool.and_eq_true, decide_eq_true_eq,
    beq_iff_eq] at halpha
  simp only [isBase64UrlChar, Bool.or_eq_true, Bool.and_eq_true, decide_eq_true_eq,
    beq_iff_eq]
  split_ifs <;> omega

/-- Witness for `uriToId_urlSafe` at the concrete URI "hé😀". -/
theorem uriToId_urlSafe_witness :
    (∀ c ∈ [104, 233, 128512], ValidCP c) ∧
      ∀ ch ∈ uriToId [104, 233, 128512], isBase64UrlChar ch = true :=
  ⟨by decide, uriToId_urlSafe [104, 233, 128512] (by decide)⟩

/-! ## Extension registry (`apps/spa/src/extensions/registry`) -/

/-- An extension record as registered in `registry.tsx`; the renderable content
type is abstracted as `R` (a React element in the source). -/
structure Extension (R : Type) where
  id : String
  title : String
  slot : String
  render : R
deriving DecidableEq

/-- `registerExtension(ext)`: `extensions.push(ext)` on the module-level
array, passed here explicitly as `st`. -/
def registerExtension {R : Type} (st : List (Extension R)) (ext : Extension R) :
    List (Extension R) := st ++ [ext]

/-- `getExtensions(slot)`: `extensions.filter((e) => e.slot === slot)`. -/
def getExtensions {R : Type} (slot : String) (st : List (Extension R)) : List (Extension R) :=
  st.filter fun e => e.slot == slot

/-- Registry contents after a sequence of `registerExtension` calls starting
from the initial empty module-level array. -/
def registryAfter {R : Type} (regs : List (Extension R)) : List (Extension R) :=
  regs.foldl registerExtension []

theorem foldl_registerExtension {R : Type} :
    ∀ (regs init : List (Extension R)), regs.foldl registerExtension init = init ++ regs
  | [], init => by simp
  | e :: tl, init => by
    simp only [List.foldl_cons]
    rw [foldl_registerExtension tl (registerExtension init e)]
    simp [registerExtension]

/-- C3: after any sequence of `registerExtension` calls, `getExtensions slot`
returns exactly the registered extensions whose `slot` field equals the
argument (exact string equality), in registration order, and the empty list
(not an error) when nothing was registered under that slot. -/
theorem getExtensions_spec {R : Type} (regs : List (Extension R)) (slot : String) :
    getExtensions slot (registryAfter regs) = regs.filter (fun e => e.slot == slot) ∧
      ((∀ e ∈ regs, e.slot ≠ slot) → getExtensions slot (registryAfter regs) = []) := by
  have hreg : registryAfter regs = regs := by
    unfold registryAfter
    rw [foldl_registerExtension regs []]
    rfl
  rw [hreg]
  refine ⟨rfl, fun h => ?_⟩
  unfold getExtensions
  rw [List.filter_eq_nil_iff]
  intro e he
  simp [h e he]

/-- The three registrations performed by `extensions/index.tsx` at startup. -/
def startupRegs : List (Extension Unit) :=
  [⟨"ext-type-facets", "Type facets", "category.sidebar", ()⟩,
   ⟨"category.map", "Category map", "category.sidebar", ()⟩,
   ⟨"entity.related", "Related entities", "entity.sidebar", ()⟩]

/-- Witness for `getExtensions_spec` at the startup registrations: the
category sidebar lists both category extensions in registration order, and an
unregistered slot yields the empty list. -/
theorem getExtensions_spec_witness :
    (getExtensions "category.sidebar" (registryAfter startupRegs) =
      startupRegs.filter (fun e => e.slot == "category.sidebar") ∧
      getExtensions "category.sidebar" (registryAfter startupRegs) =
        [⟨"ext-type-facets", "Type facets", "category.sidebar", ()⟩,
         ⟨"category.map", "Category map", "category.sidebar", ()⟩]) ∧
      ((∀ e ∈ startupRegs, e.slot ≠ "nav.topbar") ∧
        getExtensions "nav.topbar" (registryAfter startupRegs) = []) :=
  ⟨⟨(getExtensions_spec startupRegs "category.sidebar").1, by decide⟩,
   ⟨by decide, (getExtensions_spec startupRegs "nav.topbar").2 (by decide)⟩⟩

/-! ## API client (`apps/spa/src/lib/api.ts`) -/

/-- The `SearchKind` union type of `api.ts`. -/
inductive SearchKind where
  | category
  | entity
  | all
deriving DecidableEq

/-- The string sent as the `kind` query parameter. -/
def SearchKind.toParam : SearchKind → String
  | .category => "category"
  | .entity => "entity"
  | .all => "all"

/-- One element of `SearchResponse.results`; `kind` is the string
`"category"` or `"entity"` in the source union type. -/
structure SearchResult where
  uri : String
  id : String
  label : String
  kind : String
deriving DecidableEq

/-- The typed JSON body returned by `/api/search`. -/
structure SearchResponse where
  query : String
  kind : SearchKind
  limit : Nat
  offset : Nat
  count : Nat
  total : Nat
  entityTotal : Nat
  categoryTotal : Nat
  results : List SearchResult
deriving DecidableEq

/-- `CategoryRef` / `EntityRef` / `RelatedEntity`-style reference records. -/
structure CategoryRef where
  uri : String
  id : String
  label : String
deriving DecidableEq

/-- `EntityRef` from `api.ts` (same shape as `CategoryRef`). -/
structure EntityRef where
  uri : String
  id : String
  label : String
deriving DecidableEq

/-- The typed JSON body returned by `/api/category/{id}`. -/
structure CategoryDetails where
  uri : String
  id : String
  label : String
  broader : List CategoryRef
  narrower : List CategoryRef
  entityCount : Nat
deriving DecidableEq

/-- The typed JSON body returned by `/api/category/{id}/entities`. -/
structure CategoryEntitiesResponse where
  categoryUri : String
  categoryId : String
  limit : Nat
  offset : Nat
  count : Nat
  results : List EntityRef
deriving DecidableEq

/-- The typed JSON body returned by `/api/entity/{id}`. -/
structure EntityDetails where
  uri : String
  id : String
  label : String
  abstract : Option String
  types : List String
  categories : List CategoryRef
deriving DecidableEq

/-- One element of `RelatedEntitiesResponse.results`. -/
structure RelatedEntity where
  uri : String
  id : String
  label : String
  shared : Nat
deriving DecidableEq

/-- The typed JSON body returned by `/api/entity/{id}/related`. -/
structure RelatedEntitiesResponse where
  entityUri : String
  entityId : String
  limit : Nat
  count : Nat
  results : List RelatedEntity
deriving DecidableEq

/-- Hexadecimal digit character code (uppercase, as percent-escapes use). -/
def hexDigitChar (n : Nat) : Nat := if n < 10 then 48 + n else 55 + n

/-- Characters `encodeURIComponent` leaves unescaped:
`A-Z a-z 0-9 - . _ ~ ! ' ( ) *`. -/
def isUnreservedInURIComponent (c : Nat) : Bool :=
  (65 ≤ c && c ≤ 90) || (97 ≤ c && c ≤ 122) || (48 ≤ c && c ≤ 57) ||
    c == 45 || c == 46 || c == 95 || c == 126 || c == 33 || c == 39 ||
    c == 40 || c == 41 || c == 42

/-- Percent-escaping of one code point by `encodeURIComponent` (37 is `%`). -/
def encodeURIComponentCP (c : Nat) : List Nat :=
  if isUnreservedInURIComponent c then [c]
  else (utf8EncodeChar c).flatMap fun b => [37, hexDigitChar (b / 16), hexDigitChar (b % 16)]

/-- Platform `encodeURIComponent` at the `String` level. -/
def encodeURIComponentStr (s : String) : String :=
  String.mk (((s.data.map Char.toNat).flatMap encodeURIComponentCP).map Char.ofNat)

/-- A request URL: the path part and the query parameters, as assembled by
`new URL(...)` plus `searchParams.set(...)` or by template strings. -/
structure Url where
  path : String
  query : List (String × String)
deriving DecidableEq

/-- An HTTP response as seen by a request function: the status code and the
typed JSON body (body parsing is the platform's `res.json()`). -/
structure HttpResponse (β : Type) where
  status : Nat
  body : β

/-- `Response.ok` of the fetch API: status in the 2xx success range. -/
def responseOk (status : Nat) : Bool := 200 ≤ status && status < 300

/-- The URL built by `search` in `api.ts`. -/
def searchRequest (apiBase q kindParam : String) (limit offset : Nat) : Url :=
  { path := apiBase ++ "/api/search",
    query := [("q", q), ("kind", kindParam), ("limit", toString limit),
              ("offset", toString offset)] }

/-- `search` from `api.ts`: issues one request and either fails with a generic
error carrying the HTTP status (`res.ok` false) or returns the parsed body.
The result pairs the list of requests issued with the outcome. -/
def search (apiBase : String) (q : String) (kind : SearchKind) (limit : Nat := 20)
    (offset : Nat := 0) (res : HttpResponse SearchResponse) :
    List Url × Except String SearchResponse :=
  ([searchRequest apiBase q kind.toParam limit offset],
   if responseOk res.status then Except.ok res.body
   else Except.error ("Search failed: " ++ toString res.status))

/-- The URL built by `getCategory` (a template string). -/
def categoryRequest (apiBase id : String) : Url :=
  { path := apiBase ++ "/api/category/" ++ encodeURIComponentStr id, query := [] }

/-- `getCategory` from `api.ts`. -/
def getCategory (apiBase id : String) (res : HttpResponse CategoryDetails) :
    List Url × Except String CategoryDetails :=
  ([categoryRequest apiBase id],
   if responseOk res.status then Except.ok res.body
   else Except.error ("Category failed: " ++ toString res.status))

/-- The URL built by `getCategoryEntities`. -/
def categoryEntitiesRequest (apiBase id : String) (limit offset : Nat) : Url :=
  { path := apiBase ++ "/api/category/" ++ encodeURIComponentStr id ++ "/entities",
    query := [("limit", toString limit), ("offset", toString offset)] }

/-- `getCategoryEntities` from `api.ts`. -/
def getCategoryEntities (apiBase id : String) (limit : Nat := 50) (offset : Nat := 0)
    (res : HttpResponse CategoryEntitiesResponse) :
    List Url × Except String CategoryEntitiesResponse :=
  ([categoryEntitiesRequest apiBase id limit offset],
   if responseOk res.status then Except.ok res.body
   else Except.error ("Category entities failed: " ++ toString res.status))

/-- The URL built by `getEntity` (a template string). -/
def entityRequest (apiBase id : String) : Url :=
  { path := apiBase ++ "/api/entity/" ++ encodeURIComponentStr id, query := [] }

/-- `getEntity` from `api.ts`. -/
def getEntity (apiBase id : String) (res : HttpResponse EntityDetails) :
    List Url × Except String EntityDetails :=
  ([entityRequest apiBase id],
   if responseOk res.status then Except.ok res.body
   else Except.error ("Entity failed: " ++ toString res.status))

/-- The URL built by `getRelatedEntities`. -/
def relatedEntitiesRequest (apiBase id : String) (limit : Nat) : Url :=
  { path := apiBase ++ "/api/entity/" ++ encodeURIComponentStr id ++ "/related",
    query := [("limit", toString limit)] }

/-- `getRelatedEntities` from `api.ts`. -/
def getRelatedEntities (apiBase id : String) (limit : Nat := 10)
    (res : HttpResponse RelatedEntitiesResponse) :
    List Url × Except String RelatedEntitiesResponse :=
  ([relatedEntitiesRequest apiBase id limit],
   if responseOk res.status then Except.ok res.body
   else Except.error ("Related entities failed: " ++ toString res.status))

/-- C4: every API-client request function issues exactly one request (no
retry), fails with its single generic error value carrying the HTTP status
exactly when the response status is not in the success range, and otherwise
returns the parsed JSON body unchanged (no further validation). -/
theorem apiClient_errorHandling (apiBase : String) :
    (∀ q kind limit offset (res : HttpResponse SearchResponse),
      (search apiBase q kind limit offset res).1.length = 1 ∧
      (responseOk res.status = false →
        (search apiBase q kind limit offset res).2 =
          Except.error ("Search failed: " ++ toString res.status)) ∧
      (responseOk res.status = true →
        (search apiBase q kind limit offset res).2 = Except.ok res.body)) ∧
    (∀ id (res : HttpResponse CategoryDetails),
      (getCategory apiBase id res).1.length = 1 ∧
      (responseOk res.status = false →
        (getCategory apiBase id res).2 =
          Except.error ("Category failed: " ++ toString res.status)) ∧
      (responseOk res.status = true →
        (getCategory apiBase id res).2 = Except.ok res.body)) ∧
    (∀ id limit offset (res : HttpResponse CategoryEntitiesResponse),
      (getCategoryEntities apiBase id limit offset res).1.length = 1 ∧
      (responseOk res.status = false →
        (getCategoryEntities apiBase id limit offset res).2 =
          Except.error ("Category entities failed: " ++ toString res.status)) ∧
      (responseOk res.status = true →
        (getCategoryEntities apiBase id limit offset res).2 = Except.ok res.body)) ∧
    (∀ id (res : HttpResponse EntityDetails),
      (getEntity apiBase id res).1.length = 1 ∧
      (responseOk res.status = false →
        (getEntity apiBase id res).2 =
          Except.error ("Entity failed: " ++ toString res.status)) ∧
      (responseOk res.status = true →
        (getEntity apiBase id res).2 = Except.ok res.body)) ∧
    (∀ id limit (res : HttpResponse RelatedEntitiesResponse),
      (getRelatedEntities apiBase id limit res).1.length = 1 ∧
      (responseOk res.status = false →
        (getRelatedEntities apiBase id limit res).2 =
          Except.error ("Related entities failed: " ++ toString res.status)) ∧
      (responseOk res.status = true →
        (getRelatedEntities apiBase id limit res).2 = Except.ok res.body)) := by
  refine ⟨fun q kind limit offset res => ⟨rfl, fun h => ?_, fun h => ?_⟩,
    fun id res => ⟨rfl, fun h => ?_, fun h => ?_⟩,
    fun id limit offset res => ⟨rfl, fun h => ?_, fun h => ?_⟩,
    fun id res => ⟨rfl, fun h => ?_, fun h => ?_⟩,
    fun id limit res => ⟨rfl, fun h => ?_, fun h => ?_⟩⟩ <;>
  simp [search, getCategory, getCategoryEntities, getEntity, getRelatedEntities, h]

/-- Witness for `apiClient_errorHandling` at concrete inputs: `getCategory` on
a 404 response fails with the status-carrying error, and on a 200 response
returns the body unchanged. -/
theorem apiClient_errorHandling_witness :
    (responseOk 404 = false ∧
      (getCategory "" "QWJj" ⟨404, ⟨"u", "i", "l", [], [], 0⟩⟩).2 =
        Except.error ("Category failed: " ++ toString 404)) ∧
    (responseOk 200 = true ∧
      (getCategory "" "QWJj" ⟨200, ⟨"u", "i", "l", [], [], 0⟩⟩).2 =
        Except.ok ⟨"u", "i", "l", [], [], 0⟩) :=
  ⟨⟨by decide,
    ((apiClient_errorHandling "").2.1 "QWJj" ⟨404, ⟨"u", "i", "l", [], [], 0⟩⟩).2.1 (by decide)⟩,
   ⟨by decide,
    ((apiClient_errorHandling "").2.1 "QWJj" ⟨200, ⟨"u", "i", "l", [], [], 0⟩⟩).2.2 (by decide)⟩⟩

/-! ## Search page (`SearchPage.tsx`) -/

/-- The `useState` cells of `SearchPage`. -/
structure SearchState where
  qInput : String
  submittedQ : String
  kind : SearchKind
  loading : Bool
  err : Option String
  results : List SearchResult
  page : Nat
  total : Nat
  entityTotal : Nat
  categoryTotal : Nat
deriving DecidableEq

/-- JavaScript `String.prototype.trim`: drop leading and trailing
whitespace. -/
def jsTrim (s : String) : String :=
  String.mk (((s.data.dropWhile Char.isWhitespace).reverse.dropWhile
    Char.isWhitespace).reverse)

/-- The synchronous part of the fetch effect of `SearchPage` (the effect with
dependencies `[submittedQ, kind, page]`): under the minimum-length guard it
clears the result state and issues no request; otherwise it enters loading
state and issues the search request (`LIMIT = 20`,
`offset = (page - 1) * LIMIT`). -/
def searchFetchEffect (apiBase : String) (s : SearchState) : SearchState × List Url :=
  if (jsTrim s.submittedQ).length < 2 then
    ({ s with results := [], total := 0, entityTotal := 0, categoryTotal := 0, err := none }, [])
  else
    ({ s with loading := true, err := none },
     [searchRequest apiBase (jsTrim s.submittedQ) s.kind.toParam 20 ((s.page - 1) * 20)])

/-- The effect of `SearchPage` with dependency `[kind]`: `setPage(1)`. -/
def kindChangeEffect (s : SearchState) : SearchState := { s with page := 1 }

/-- A user change of the result-kind select: `setKind(k)` followed by the
re-run of the `[kind]` effect. -/
def changeKind (k : SearchKind) (s : SearchState) : SearchState :=
  kindChangeEffect { s with kind := k }

/-- C5: for every state whose submitted query trims to fewer than 2
characters, the fetch effect clears `results`, `total`, `entityTotal` and
`categoryTotal` and issues no network request. -/
theorem searchPage_minLengthGuard (apiBase : String) (s : SearchState)
    (h : (jsTrim s.submittedQ).length < 2) :
    (searchFetchEffect apiBase s).1.results = [] ∧
    (searchFetchEffect apiBase s).1.total = 0 ∧
    (searchFetchEffect apiBase s).1.entityTotal = 0 ∧
    (searchFetchEffect apiBase s).1.categoryTotal = 0 ∧
    (searchFetchEffect apiBase s).2 = [] := by
  simp [searchFetchEffect, h]

/-- A concrete search-page state with a one-character submitted query and
stale results from an earlier search. -/
def shortQueryState : SearchState :=
  { qInput := "a", submittedQ := "a", kind := SearchKind.all, loading := false,
    err := none, results := [⟨"u", "i", "l", "entity"⟩], page := 3, total := 45,
    entityTotal := 30, categoryTotal := 15 }

/-- Witness for `searchPage_minLengthGuard` at `shortQueryState`. -/
theorem searchPage_minLengthGuard_witness :
    (jsTrim shortQueryState.submittedQ).length < 2 ∧
    ((searchFetchEffect "" shortQueryState).1.results = [] ∧
     (searchFetchEffect "" shortQueryState).1.total = 0 ∧
     (searchFetchEffect "" shortQueryState).1.entityTotal = 0 ∧
     (searchFetchEffect "" shortQueryState).1.categoryTotal = 0 ∧
     (searchFetchEffect "" shortQueryState).2 = []) :=
  ⟨by decide, searchPage_minLengthGuard "" shortQueryState (by decide)⟩

/-- C7: changing the result-kind filter resets the page number to 1 and
leaves the submitted query text (and the rest of the search state other than
the kind itself) unchanged. -/
theorem searchPage_kindChangeResetsPage (k : SearchKind) (s : SearchState) :
    (changeKind k s).page = 1 ∧
    (changeKind k s).submittedQ = s.submittedQ ∧
    (changeKind k s).kind = k ∧
    (changeKind k s).results = s.results ∧
    (changeKind k s).qInput = s.qInput := by
  refine ⟨rfl, rfl, rfl, rfl, rfl⟩

/-! ## Category page (`CategoryPage.tsx`) -/

/-- The `useState` cells of `CategoryPage`; `id` is the `useParams` route
parameter (`none` models an absent parameter, caught by `if (!id) return`). -/
structure CategoryPageState where
  id : Option String
  cat : Option CategoryDetails
  entities : List EntityRef
  loading : Bool
  entitiesLoading : Bool
  err : Option String
  selectedTypes : List String
deriving DecidableEq

/-- The `wadev:typeFilterChanged` event handler of `CategoryPage`:
`setSelectedTypes(ce.detail?.types ?? [])`. -/
def handleTypeFilterChanged (types : List String) (s : CategoryPageState) : CategoryPageState :=
  { s with selectedTypes := types }

/-- The URL built inline by the entities effect of `CategoryPage` when a type
filter is active (`/entitiesByType`, `types` comma-joined). -/
def entitiesByTypeRequest (apiBase id : String) (types : List String)
    (limit offset : Nat) : Url :=
  { path := apiBase ++ "/api/category/" ++ encodeURIComponentStr id ++ "/entitiesByType",
    query := [("types", String.intercalate "," types), ("limit", toString limit),
              ("offset", toString offset)] }

/-- The synchronous part of the category-metadata effect of `CategoryPage`
(dependencies `[id]`): reset error, enter loading state, clear the loaded
category, issue the `getCategory` request. -/
def categoryFetchEffect (apiBase : String) (s : CategoryPageState) :
    CategoryPageState × List Url :=
  match s.id with
  | none => (s, [])
  | some i =>
    ({ s with err := none, loading := true, cat := none }, [categoryRequest apiBase i])

/-- The synchronous part of the entity-list effect of `CategoryPage`
(dependencies `[id, selectedTypes]`): reset error, enter entities-loading
state, issue either the filtered `/entitiesByType` request or the plain
`getCategoryEntities` request (`limit 25, offset 0`). -/
def entitiesFetchEffect (apiBase : String) (s : CategoryPageState) :
    CategoryPageState × List Url :=
  match s.id with
  | none => (s, [])
  | some i =>
    if s.selectedTypes.length ≠ 0 then
      ({ s with err := none, entitiesLoading := true },
       [entitiesByTypeRequest apiBase i s.selectedTypes 25 0])
    else
      ({ s with err := none, entitiesLoading := true },
       [categoryEntitiesRequest apiBase i 25 0])

/-- The dependency snapshots React keeps for the two effects of
`CategoryPage`: `[id]` for the category fetch, `[id, selectedTypes]` for the
entity-list fetch. -/
structure CategoryPageDeps where
  catDeps : Option String
  entDeps : Option String × List String
deriving DecidableEq

/-- One render of `CategoryPage`: re-run each effect exactly when its
dependency array changed, collecting the issued requests. -/
def runCategoryPageEffects (apiBase : String) (old : CategoryPageDeps)
    (s : CategoryPageState) : CategoryPageState × List Url :=
  let step1 := if old.catDeps ≠ s.id then categoryFetchEffect apiBase s else (s, [])
  let step2 := if old.entDeps ≠ (s.id, s.selectedTypes) then
      entitiesFetchEffect apiBase step1.1 else (step1.1, [])
  (step2.1, step1.2 ++ step2.2)

/-- C6: receiving a `typeFilterChanged` broadcast with a changed type list
while the route id is unchanged re-issues only the entity-list fetch: the
issued requests are exactly the one entity-list request, the category-metadata
request is not among them, and the loaded category details are unchanged. -/
theorem categoryPage_typeFilterFrame (apiBase : String) (old : CategoryPageDeps)
    (s : CategoryPageState) (i : String) (types : List String)
    (hid : s.id = some i) (hcat : old.catDeps = s.id)
    (hent : old.entDeps = (s.id, s.selectedTypes)) (hty : types ≠ s.selectedTypes) :
    (runCategoryPageEffects apiBase old (handleTypeFilterChanged types s)).1.cat = s.cat ∧
    (runCategoryPageEffects apiBase old (handleTypeFilterChanged types s)).2 =
      (if types.length ≠ 0 then [entitiesByTypeRequest apiBase i types 25 0]
       else [categoryEntitiesRequest apiBase i 25 0]) ∧
    categoryRequest apiBase i ∉
      (runCategoryPageEffects apiBase old (handleTypeFilterChanged types s)).2 := by
  have h1 : ¬ (old.catDeps ≠ (handleTypeFilterChanged types s).id) := by
    simp [handleTypeFilterChanged, hcat]
  have h2 : old.entDeps ≠ ((handleTypeFilterChanged types s).id,
      (handleTypeFilterChanged types s).selectedTypes) := by
    simp [handleTypeFilterChanged, hent, Prod.ext_iff]
    exact Ne.symm hty
  unfold runCategoryPageEffects
  simp only [h1, if_neg, if_pos h2, if_false, ite_not]
  have he : (handleTypeFilterChanged types s).id = some i := hid
  unfold entitiesFetchEffect
  rw [he]
  have hsel : (handleTypeFilterChanged types s).selectedTypes = types := rfl
  rw [hsel]
  by_cases hl : types.length ≠ 0
  · simp only [if_pos hl, hl, ite_true, if_true]
    refine ⟨rfl, by simp [hl], ?_⟩
    simp [categoryRequest, entitiesByTypeRequest]
  · have hnil : types = [] := by
      cases types with
      | nil => rfl
      | cons a t => simp at hl
    subst hnil
    simp only [if_neg hl]
    refine ⟨rfl, by simp, ?_⟩
    simp [categoryRequest, categoryEntitiesRequest]

/-- A concrete loaded category-page state awaiting a type-filter event. -/
def typeFilterDemoState : CategoryPageState :=
  { id := some "Q2F0QQ", cat := some ⟨"http://x/CatA", "Q2F0QQ", "Cat A", [], [], 7⟩,
    entities := [], loading := false, entitiesLoading := false, err := none,
    selectedTypes := [] }

/-- The dependency snapshots after the previous render of
`typeFilterDemoState`. -/
def typeFilterDemoDeps : CategoryPageDeps :=
  { catDeps := some "Q2F0QQ", entDeps := (some "Q2F0QQ", []) }

/-- Witness for `categoryPage_typeFilterFrame` at a concrete state and a
concrete one-type filter. -/
theorem categoryPage_typeFilterFrame_witness :
    (typeFilterDemoState.id = some "Q2F0QQ" ∧
     typeFilterDemoDeps.catDeps = typeFilterDemoState.id ∧
     typeFilterDemoDeps.entDeps =
       (typeFilterDemoState.id, typeFilterDemoState.selectedTypes) ∧
     ["http://dbpedia.org/ontology/Person"] ≠ typeFilterDemoState.selectedTypes) ∧
    ((runCategoryPageEffects "" typeFilterDemoDeps
        (handleTypeFilterChanged ["http://dbpedia.org/ontology/Person"]
          typeFilterDemoState)).1.cat = typeFilterDemoState.cat ∧
     (runCategoryPageEffects "" typeFilterDemoDeps
        (handleTypeFilterChanged ["http://dbpedia.org/ontology/Person"]
          typeFilterDemoState)).2 =
       (if (["http://dbpedia.org/ontology/Person"] : List String).length ≠ 0 then
          [entitiesByTypeRequest "" "Q2F0QQ" ["http://dbpedia.org/ontology/Person"] 25 0]
        else [categoryEntitiesRequest "" "Q2F0QQ" 25 0]) ∧
     categoryRequest "" "Q2F0QQ" ∉
       (runCategoryPageEffects "" typeFilterDemoDeps
          (handleTypeFilterChanged ["http://dbpedia.org/ontology/Person"]
            typeFilterDemoState)).2) :=
  ⟨⟨rfl, rfl, rfl, by decide⟩,
   categoryPage_typeFilterFrame "" typeFilterDemoDeps typeFilterDemoState "Q2F0QQ"
     ["http://dbpedia.org/ontology/Person"] rfl rfl rfl (by decide)⟩

/-! ## Stale-fetch cancellation (the `cancelled`-flag pattern shared by the
fetch effects of `SearchPage`, `CategoryPage`, `EntityPage` and the
extensions: each effect run closes over a `cancelled` boolean, the effect
cleanup sets it, and React runs the cleanup of run `k` before effect run
`k + 1` starts; a continuation commits its result only if its own flag is
still unset). -/

/-- An event at one fetch site: a re-triggered effect run (`issue`), or the
arrival of the response of fetch number `k` carrying result `r`
(`respond k r`). -/
inductive FetchEvent where
  | issue : FetchEvent
  | respond : Nat → Nat → FetchEvent
deriving DecidableEq

/-- The state of one fetch site: the `cancelled` flag of every issued fetch
(index order), and the result last committed into visible page state, tagged
with the fetch that produced it. -/
structure FetchSiteState where
  flags : List Bool
  committed : Option (Nat × Nat)
deriving DecidableEq

/-- The effect cleanup: `cancelled = true` for the currently active run. -/
def cancelActive (flags : List Bool) : List Bool :=
  if flags = [] then [] else flags.dropLast ++ [true]

/-- One event step: issuing a new fetch first runs the cleanup of the previous
effect run (setting its flag), then starts a run with a fresh unset flag; a
response continuation checks its own `cancelled` flag and either commits its
result into visible state or discards it. -/
def fetchStep (s : FetchSiteState) : FetchEvent → FetchSiteState
  | FetchEvent.issue => { s with flags := cancelActive s.flags ++ [false] }
  | FetchEvent.respond k r =>
    if s.flags.getD k true = false then { s with committed := some (k, r) } else s

/-- Run a fetch site from its initial state through a list of events. -/
def runFetchSite (evs : List FetchEvent) : FetchSiteState :=
  evs.foldl fetchStep ⟨[], none⟩

/-- The flag list after `n` issues: all earlier runs cancelled, the latest
one not. -/
def flagsOf : Nat → List Bool
  | 0 => []
  | n + 1 => List.replicate n true ++ [false]

/-- The scenario of the claim: `n` re-triggered fetches are issued before any
response arrives, then the responses come back in an arbitrary order. -/
def issueThen (n : Nat) (responds : List (Nat × Nat)) : List FetchEvent :=
  List.replicate n FetchEvent.issue ++ responds.map fun p => FetchEvent.respond p.1 p.2

theorem cancelActive_flagsOf (m : Nat) :
    cancelActive (flagsOf m) ++ [false] = flagsOf (m + 1) := by
  cases m with
  | zero => rfl
  | succ k =>
    unfold flagsOf cancelActive
    rw [if_neg (by simp), List.dropLast_concat, ← List.replicate_succ' (n := k)]

theorem fetchStep_respond_flags (s : FetchSiteState) (k r : Nat) :
    (fetchStep s (FetchEvent.respond k r)).flags = s.flags := by
  show (if s.flags.getD k true = false then
      { s with committed := some (k, r) } else s).flags = s.flags
  split <;> rfl

/-- Number of `issue` events in a trace. -/
def countIssues (evs : List FetchEvent) : Nat :=
  (evs.filter fun e => e == FetchEvent.issue).length

theorem foldl_fetchStep_flags :
    ∀ (evs : List FetchEvent) (s : FetchSiteState) (m : Nat), s.flags = flagsOf m →
      (evs.foldl fetchStep s).flags = flagsOf (countIssues evs + m)
  | [], s, m, h => by simpa [countIssues]
  | FetchEvent.issue :: tl, s, m, h => by
    rw [List.foldl_cons,
      foldl_fetchStep_flags tl (fetchStep s FetchEvent.issue) (m + 1) (by
        show (fetchStep s FetchEvent.issue).flags = flagsOf (m + 1)
        unfold fetchStep
        rw [show ({ s with flags := cancelActive s.flags ++ [false] } :
            FetchSiteState).flags = cancelActive s.flags ++ [false] from rfl, h,
          cancelActive_flagsOf])]
    have : countIssues (FetchEvent.issue :: tl) = countIssues tl + 1 := by
      simp [countIssues]
    rw [this]
    congr 1
    omega
  | FetchEvent.respond k r :: tl, s, m, h => by
    rw [List.foldl_cons,
      foldl_fetchStep_flags tl (fetchStep s (FetchEvent.respond k r)) m (by
        rw [fetchStep_respond_flags, h])]
    have : countIssues (FetchEvent.respond k r :: tl) = countIssues tl := by
      simp [countIssues]
    rw [this]

theorem flagsOf_cons (m : Nat) (h : 1 ≤ m) : flagsOf (m + 1) = true :: flagsOf m := by
  cases m with
  | zero => omega
  | succ k =>
    show List.replicate (k + 1) true ++ [false] = true :: (List.replicate k true ++ [false])
    rw [List.replicate_succ]
    rfl

theorem flagsOf_getD : ∀ n k : Nat, (flagsOf n).getD k true =
    if k + 1 = n then false else true
  | 0, k => by simp [flagsOf]
  | 1, 0 => by rfl
  | 1, j + 1 => by
    show ([false] : List Bool).getD (j + 1) true = if j + 1 + 1 = 1 then false else true
    rw [List.getD_cons_succ]
    simp
  | n + 2, 0 => by
    rw [flagsOf_cons (n + 1) (by omega), List.getD_cons_zero]
    simp
  | n + 2, j + 1 => by
    rw [flagsOf_cons (n + 1) (by omega), List.getD_cons_succ, flagsOf_getD (n + 1) j]
    by_cases hj : j + 1 = n + 1
    · rw [if_pos hj, if_pos (by omega)]
    · rw [if_neg hj, if_neg (by omega)]

theorem countIssues_replicate (n : Nat) :
    countIssues (List.replicate n FetchEvent.issue) = n := by
  unfold countIssues
  rw [List.filter_eq_self.mpr (fun a ha => by rw [List.eq_of_mem_replicate ha]; rfl)]
  exact List.length_replicate ..

theorem foldl_issue_committed (n : Nat) :
    ∀ s : FetchSiteState,
      ((List.replicate n FetchEvent.issue).foldl fetchStep s).committed = s.committed := by
  induction n with
  | zero => intro s; rfl
  | succ m ih =>
    intro s
    rw [List.replicate_succ, List.foldl_cons, ih]
    rfl

theorem fetchStep_respond_committed (n k r : Nat) (s : FetchSiteState)
    (hf : s.flags = flagsOf n)
    (hc : s.committed = none ∨ ∃ x, s.committed = some (n - 1, x)) :
    (fetchStep s (FetchEvent.respond k r)).committed = none ∨
      ∃ x, (fetchStep s (FetchEvent.respond k r)).committed = some (n - 1, x) := by
  simp only [fetchStep]
  by_cases hflag : s.flags.getD k true = false
  · simp only [if_pos hflag]
    right
    refine ⟨r, ?_⟩
    show some (k, r) = some (n - 1, r)
    rw [hf, flagsOf_getD] at hflag
    by_cases hkn : k + 1 = n
    · rw [show k = n - 1 from by omega]
    · rw [if_neg hkn] at hflag
      exact absurd hflag (by simp)
  · simp only [if_neg hflag]
    exact hc

theorem foldl_respond_committed (n : Nat) :
    ∀ (rs : List (Nat × Nat)) (s : FetchSiteState), s.flags = flagsOf n →
      (s.committed = none ∨ ∃ x, s.committed = some (n - 1, x)) →
      (((rs.map fun p => FetchEvent.respond p.1 p.2).foldl fetchStep s).committed = none ∨
        ∃ x, ((rs.map fun p => FetchEvent.respond p.1 p.2).foldl fetchStep s).committed =
          some (n - 1, x))
  | [], _, _, hc => hc
  | (k, r) :: tl, s, hf, hc => by
    rw [List.map_cons, List.foldl_cons]
    exact foldl_respond_committed n tl (fetchStep s (FetchEvent.respond k r))
      (by rw [fetchStep_respond_flags, hf])
      (fetchStep_respond_committed n k r s hf hc)

theorem runFetchSite_issueThen_flags (n : Nat) (rs : List (Nat × Nat)) :
    (runFetchSite (issueThen n rs)).flags = flagsOf n := by
  unfold runFetchSite issueThen
  rw [foldl_fetchStep_flags _ _ 0 rfl]
  congr 1
  unfold countIssues
  rw [List.filter_append]
  rw [show List.filter (fun e => e == FetchEvent.issue)
      (rs.map fun p => FetchEvent.respond p.1 p.2) = [] from by
    rw [List.filter_eq_nil_iff]
    intro a ha
    rw [List.mem_map] at ha
    obtain ⟨p, _, rfl⟩ := ha
    simp]
  rw [List.append_nil]
  have h := countIssues_replicate n
  unfold countIssues at h
  rw [h]
  omega

/-- C2: at one fetch site, when fetches are re-triggered `n` times before any
response arrives (route id changing A, B, C, ...) and the responses then
arrive in an arbitrary order, (1) only the continuation of the most recently
issued fetch can ever commit its result into visible page state — the final
committed value is absent or carries fetch `n - 1` — and (2) every earlier
continuation, at the moment it runs, observes its cancellation flag set and
leaves the whole state unchanged (its result is discarded). -/
theorem lastRequestWins (n : Nat) (responds : List (Nat × Nat)) :
    ((runFetchSite (issueThen n responds)).committed = none ∨
      ∃ r, (runFetchSite (issueThen n responds)).committed = some (n - 1, r)) ∧
    (∀ r1 k r r2, responds = r1 ++ (k, r) :: r2 → k + 1 < n →
      (runFetchSite (issueThen n r1)).flags.getD k true = true ∧
      fetchStep (runFetchSite (issueThen n r1)) (FetchEvent.respond k r) =
        runFetchSite (issueThen n r1)) := by
  constructor
  · unfold runFetchSite issueThen
    rw [List.foldl_append]
    apply foldl_respond_committed n
    · rw [foldl_fetchStep_flags _ _ 0 rfl, countIssues_replicate n]
      rw [Nat.add_zero]
    · left
      exact foldl_issue_committed n _
  · intro r1 k r r2 _ hk
    have htrue : (runFetchSite (issueThen n r1)).flags.getD k true = true := by
      rw [runFetchSite_issueThen_flags, flagsOf_getD, if_neg (by omega)]
    refine ⟨htrue, ?_⟩
    simp only [fetchStep, htrue]
    simp

/-- Witness for `lastRequestWins`: three fetches A, B, C issued before any
response, responses arriving in order; only C (fetch index 2) can commit, and
A's continuation (fetch index 0), running right after the three issues, sees
its flag set and changes nothing.  The final `decide` conjunct evaluates the
trace concretely: C's result 12 is the one committed. -/
theorem lastRequestWins_witness :
    ((runFetchSite (issueThen 3 [(0, 10), (1, 11), (2, 12)])).committed = none ∨
      ∃ r, (runFetchSite (issueThen 3 [(0, 10), (1, 11), (2, 12)])).committed =
        some (3 - 1, r)) ∧
    ((runFetchSite (issueThen 3 [])).flags.getD 0 true = true ∧
      fetchStep (runFetchSite (issueThen 3 [])) (FetchEvent.respond 0 10) =
        runFetchSite (issueThen 3 [])) ∧
    (runFetchSite (issueThen 3 [(0, 10), (1, 11), (2, 12)])).committed = some (2, 12) :=
  ⟨(lastRequestWins 3 [(0, 10), (1, 11), (2, 12)]).1,
   (lastRequestWins 3 [(0, 10), (1, 11), (2, 12)]).2 [] 0 10 [(1, 11), (2, 12)] rfl
     (by omega),
   by decide⟩

/-! ## Category-map extension (`CategoryMap.tsx`) -/

/-- A 2D point of the SVG mini-graph (JavaScript numbers modelled as ℚ,
since `spreadY` divides). -/
structure MapPoint where
  x : ℚ
  y : ℚ
deriving DecidableEq

/-- A node of the `graph` useMemo of `CategoryMap`. -/
structure MapNode where
  key : String
  label : String
  id : String
  side : String
  x : ℚ
  y : ℚ
deriving DecidableEq

/-- An edge of the `graph` useMemo (the source's `{from, to}` record). -/
structure MapEdge where
  efrom : MapPoint
  eto : MapPoint
deriving DecidableEq

/-- `spreadY(n)` from `CategoryMap`: with H = 180, a single (or no) node sits
at `cy = H / 2`; otherwise `n` y-coordinates from `top = 26` to
`bottom = H - 26` in steps of `(bottom - top) / (n - 1)`. -/
def spreadY (n : Nat) : List ℚ :=
  if n ≤ 1 then [180 / 2]
  else (List.range n).map fun (i : Nat) => 26 + (i : ℚ) * ((180 - 26 - 26) / ((n : ℚ) - 1))

/-- The value of the `graph` useMemo of `CategoryMap` for a loaded category. -/
structure CategoryMapGraph where
  parents : List CategoryRef
  children : List CategoryRef
  nodes : List MapNode
  edges : List MapEdge
deriving DecidableEq

/-- The `graph` useMemo of `CategoryMap`: fixed canvas W = 280, H = 180,
center `(cx, cy) = (140, 90)`, parents (first 4 broader) on the left at
`leftX = 52`, children (first 6 narrower) on the right at
`rightX = W - 52 = 228`, one edge parent→center per parent and one
center→child per child. -/
def categoryMapGraph (cat : CategoryDetails) : CategoryMapGraph :=
  let parents := cat.broader.take 4
  let children := cat.narrower.take 6
  let cx : ℚ := 280 / 2
  let cy : ℚ := 180 / 2
  let leftX : ℚ := 52
  let rightX : ℚ := 280 - 52
  let parentYs := spreadY parents.length
  let childYs := spreadY children.length
  { parents := parents
    children := children
    nodes :=
      ⟨"center", cat.label, cat.id, "center", cx, cy⟩ ::
        (parents.enum.map fun p =>
          ⟨"p-" ++ p.2.id, p.2.label, p.2.id, "left", leftX, parentYs.getD p.1 0⟩) ++
        (children.enum.map fun c =>
          ⟨"c-" ++ c.2.id, c.2.label, c.2.id, "right", rightX, childYs.getD c.1 0⟩)
    edges :=
      (parents.enum.map fun p => ⟨⟨leftX, parentYs.getD p.1 0⟩, ⟨cx, cy⟩⟩) ++
        (children.enum.map fun c => ⟨⟨cx, cy⟩, ⟨rightX, childYs.getD c.1 0⟩⟩) }

theorem spreadY_length (n : Nat) : (spreadY n).length = if n ≤ 1 then 1 else n := by
  unfold spreadY
  split <;> simp

theorem spreadY_single : spreadY 1 = [90] := by
  norm_num [spreadY]

theorem spreadY_getD_lt (n i : Nat) (h2 : 2 ≤ n) (hi : i < n) :
    (spreadY n).getD i 0 = 26 + (i : ℚ) * (128 / ((n : ℚ) - 1)) := by
  unfold spreadY
  rw [if_neg (by omega)]
  rw [List.getD_eq_getElem _ _ (by simpa using hi)]
  rw [List.getElem_map, List.getElem_range]
  norm_num

theorem spreadY_spacing (n i : Nat) (h2 : 2 ≤ n) (hi : i + 1 < n) :
    (spreadY n).getD (i + 1) 0 - (spreadY n).getD i 0 = 128 / ((n : ℚ) - 1) := by
  rw [spreadY_getD_lt n (i + 1) h2 hi, spreadY_getD_lt n i h2 (by omega)]
  push_cast
  ring

theorem spreadY_mem_bounds (n : Nat) (y : ℚ) (hy : y ∈ spreadY n) : 0 ≤ y ∧ y ≤ 180 := by
  unfold spreadY at hy
  split at hy
  · rw [List.mem_singleton] at hy
    norm_num [hy]
  · rw [List.mem_map] at hy
    obtain ⟨i, hi, rfl⟩ := hy
    rw [List.mem_range] at hi
    rename_i hn
    have hn2 : (2 : ℚ) ≤ (n : ℚ) := by exact_mod_cast (by omega : 2 ≤ n)
    have hstep : (0 : ℚ) ≤ (180 - 26 - 26) / ((n : ℚ) - 1) := by
      apply div_nonneg (by norm_num)
      linarith
    constructor
    · have := mul_nonneg (by positivity : (0 : ℚ) ≤ (i : ℚ)) hstep
      linarith
    · have hile : (i : ℚ) ≤ (n : ℚ) - 1 := by
        have : (i : ℚ) + 1 ≤ (n : ℚ) := by exact_mod_cast hi
        linarith
      have h1 : (i : ℚ) * ((180 - 26 - 26) / ((n : ℚ) - 1)) ≤
          ((n : ℚ) - 1) * ((180 - 26 - 26) / ((n : ℚ) - 1)) :=
        mul_le_mul_of_nonneg_right hile hstep
      have hne : (n : ℚ) - 1 ≠ 0 := by linarith
      rw [mul_comm ((n : ℚ) - 1), div_mul_cancel₀ _ hne] at h1
      norm_num at h1 ⊢
      linarith

theorem getD_enum_map {α β : Type} (d : β) (f : Nat × α → β) (l : List α) (i : Nat)
    (hi : i < l.length) :
    (l.enum.map f).getD i d = f (i, l.get ⟨i, hi⟩) := by
  rw [List.getD_eq_getElem _ _ (by simpa [List.enum_length] using hi)]
  rw [List.getElem_map]
  congr 1
  simp [List.getElem_enum, List.get_eq_getElem]

theorem getD_append_left {α : Type} (d : α) (l1 l2 : List α) (i : Nat)
    (hi : i < l1.length) : (l1 ++ l2).getD i d = l1.getD i d := by
  rw [List.getD_eq_getElem _ _ (by simp; omega), List.getD_eq_getElem _ _ hi]
  exact List.getElem_append_left hi

theorem getD_append_right_off {α : Type} (d : α) (l1 l2 : List α) (j : Nat)
    (hj : j < l2.length) : (l1 ++ l2).getD (l1.length + j) d = l2.getD j d := by
  rw [List.getD_eq_getElem _ _ (by simp; omega), List.getD_eq_getElem _ _ hj]
  rw [List.getElem_append_right (by omega)]
  congr 1
  omega

/-- Placeholder node used as the `getD` default when indexing the node list. -/
def defaultMapNode : MapNode := ⟨"", "", "", "", 0, 0⟩

/-- Placeholder edge used as the `getD` default when indexing the edge list. -/
def defaultMapEdge : MapEdge := ⟨⟨0, 0⟩, ⟨0, 0⟩⟩

theorem categoryMapGraph_nodes (cat : CategoryDetails) :
    (categoryMapGraph cat).nodes =
      ⟨"center", cat.label, cat.id, "center", 280 / 2, 180 / 2⟩ ::
        ((cat.broader.take 4).enum.map fun p =>
          ⟨"p-" ++ p.2.id, p.2.label, p.2.id, "left", 52,
            (spreadY (cat.broader.take 4).length).getD p.1 0⟩) ++
        ((cat.narrower.take 6).enum.map fun c =>
          ⟨"c-" ++ c.2.id, c.2.label, c.2.id, "right", 280 - 52,
            (spreadY (cat.narrower.take 6).length).getD c.1 0⟩) := rfl

theorem categoryMapGraph_edges (cat : CategoryDetails) :
    (categoryMapGraph cat).edges =
      ((cat.broader.take 4).enum.map fun p =>
        ⟨⟨52, (spreadY (cat.broader.take 4).length).getD p.1 0⟩, ⟨280 / 2, 180 / 2⟩⟩) ++
      ((cat.narrower.take 6).enum.map fun c =>
        ⟨⟨280 / 2, 180 / 2⟩, ⟨280 - 52, (spreadY (cat.narrower.take 6).length).getD c.1 0⟩⟩) :=
  rfl

theorem getD_append_right_at {α : Type} (d : α) (l1 l2 : List α) (idx j : Nat)
    (hidx : idx = l1.length + j) (hj : j < l2.length) :
    (l1 ++ l2).getD idx d = l2.getD j d := by
  subst hidx
  exact getD_append_right_off d l1 l2 j hj

/-- C9: the `CategoryMap` layout is static on the fixed 280 × 180 canvas: the
parents are the first 4 broader categories (left column, `x = 52`), the
children the first 6 narrower ones (right column, `x = 228`), all nodes lie
inside the canvas, each side is evenly spaced vertically (constant gap
`128 / (n - 1)`; a single node is centered at `y = 90`), and there is exactly
one edge per displayed parent (parent → center) and per displayed child
(center → child), all meeting the central node at `(140, 90)`. -/
theorem categoryMap_layout (cat : CategoryDetails) :
    (categoryMapGraph cat).parents = cat.broader.take 4 ∧
    (categoryMapGraph cat).children = cat.narrower.take 6 ∧
    (categoryMapGraph cat).parents.length ≤ 4 ∧
    (categoryMapGraph cat).children.length ≤ 6 ∧
    (categoryMapGraph cat).nodes.length =
      1 + (cat.broader.take 4).length + (cat.narrower.take 6).length ∧
    (categoryMapGraph cat).nodes.getD 0 defaultMapNode =
      ⟨"center", cat.label, cat.id, "center", 140, 90⟩ ∧
    (∀ i, ∀ hi : i < (cat.broader.take 4).length,
      (categoryMapGraph cat).nodes.getD (1 + i) defaultMapNode =
        ⟨"p-" ++ ((cat.broader.take 4).get ⟨i, hi⟩).id,
          ((cat.broader.take 4).get ⟨i, hi⟩).label,
          ((cat.broader.take 4).get ⟨i, hi⟩).id, "left", 52,
          (spreadY (cat.broader.take 4).length).getD i 0⟩) ∧
    (∀ j, ∀ hj : j < (cat.narrower.take 6).length,
      (categoryMapGraph cat).nodes.getD (1 + (cat.broader.take 4).length + j)
          defaultMapNode =
        ⟨"c-" ++ ((cat.narrower.take 6).get ⟨j, hj⟩).id,
          ((cat.narrower.take 6).get ⟨j, hj⟩).label,
          ((cat.narrower.take 6).get ⟨j, hj⟩).id, "right", 228,
          (spreadY (cat.narrower.take 6).length).getD j 0⟩) ∧
    (∀ nd ∈ (categoryMapGraph cat).nodes,
      0 ≤ nd.x ∧ nd.x ≤ 280 ∧ 0 ≤ nd.y ∧ nd.y ≤ 180) ∧
    (categoryMapGraph cat).edges.length =
      (cat.broader.take 4).length + (cat.narrower.take 6).length ∧
    (∀ i, ∀ hi : i < (cat.broader.take 4).length,
      (categoryMapGraph cat).edges.getD i defaultMapEdge =
        ⟨⟨52, (spreadY (cat.broader.take 4).length).getD i 0⟩, ⟨140, 90⟩⟩) ∧
    (∀ j, ∀ hj : j < (cat.narrower.take 6).length,
      (categoryMapGraph cat).edges.getD ((cat.broader.take 4).length + j) defaultMapEdge =
        ⟨⟨140, 90⟩, ⟨228, (spreadY (cat.narrower.take 6).length).getD j 0⟩⟩) ∧
    spreadY 1 = [90] ∧
    (∀ n i, 2 ≤ n → i + 1 < n →
      (spreadY n).getD (i + 1) 0 - (spreadY n).getD i 0 = 128 / ((n : ℚ) - 1)) := by
  have hq1 : (280 : ℚ) / 2 = 140 := by norm_num
  have hq2 : (180 : ℚ) / 2 = 90 := by norm_num
  have hq3 : (280 : ℚ) - 52 = 228 := by norm_num
  have hn := categoryMapGraph_nodes cat
  have he := categoryMapGraph_edges cat
  rw [hq1, hq2, hq3] at hn
  rw [hq1, hq2, hq3] at he
  rw [List.cons_append] at hn
  refine ⟨rfl, rfl, ?_, ?_, ?_, ?_, ?_, ?_, ?_, ?_, ?_, ?_, spreadY_single,
    fun n i h2 hi => spreadY_spacing n i h2 hi⟩
  · rw [show (categoryMapGraph cat).parents = cat.broader.take 4 from rfl,
      List.length_take]
    omega
  · rw [show (categoryMapGraph cat).children = cat.narrower.take 6 from rfl,
      List.length_take]
    omega
  · rw [hn]
    simp [List.enum_length]
    omega
  · rw [hn, List.getD_cons_zero]
  · intro i hi
    rw [hn, show 1 + i = i + 1 from by omega, List.getD_cons_succ]
    rw [getD_append_left _ _ _ _ (by simpa [List.enum_length] using hi)]
    rw [getD_enum_map _ _ _ _ hi]
  · intro j hj
    rw [hn, show 1 + (cat.broader.take 4).length + j =
      ((cat.broader.take 4).length + j) + 1 from by omega, List.getD_cons_succ]
    rw [getD_append_right_at _ _ _ _ j (by simp [List.enum_length]) (by
      simpa [List.enum_length] using hj)]
    rw [getD_enum_map _ _ _ _ hj]
  · intro nd hnd
    rw [hn] at hnd
    rcases List.mem_cons.mp hnd with rfl | hnd1
    · norm_num
    · rcases List.mem_append.mp hnd1 with hmem | hmem
      · obtain ⟨p, hp, rfl⟩ := List.mem_map.mp hmem
        have hplt := List.fst_lt_of_mem_enum hp
        have hlen : p.1 < (spreadY (cat.broader.take 4).length).length := by
          rw [spreadY_length]
          split <;> omega
        have hb := spreadY_mem_bounds (cat.broader.take 4).length
          ((spreadY (cat.broader.take 4).length).getD p.1 0) (by
            rw [List.getD_eq_getElem _ _ hlen]
            exact List.getElem_mem hlen)
        refine ⟨by norm_num, by norm_num, hb.1, hb.2⟩
      · obtain ⟨c, hc, rfl⟩ := List.mem_map.mp hmem
        have hclt := List.fst_lt_of_mem_enum hc
        have hlen : c.1 < (spreadY (cat.narrower.take 6).length).length := by
          rw [spreadY_length]
          split <;> omega
        have hb := spreadY_mem_bounds (cat.narrower.take 6).length
          ((spreadY (cat.narrower.take 6).length).getD c.1 0) (by
            rw [List.getD_eq_getElem _ _ hlen]
            exact List.getElem_mem hlen)
        refine ⟨by norm_num, by norm_num, hb.1, hb.2⟩
  · rw [he]
    simp [List.enum_length]
  · intro i hi
    rw [he]
    rw [getD_append_left _ _ _ _ (by simpa [List.enum_length] using hi)]
    rw [getD_enum_map _ _ _ _ hi]
  · intro j hj
    rw [he]
    rw [getD_append_right_at _ _ _ _ j (by simp [List.enum_length]) (by
      simpa [List.enum_length] using hj)]
    rw [getD_enum_map _ _ _ _ hj]

/-- A concrete category with 2 broader and 3 narrower categories. -/
def demoCategory : CategoryDetails :=
  { uri := "http://x/C", id := "Qw", label := "C",
    broader := [⟨"http://x/P1", "UDE", "P1"⟩, ⟨"http://x/P2", "UDI", "P2"⟩],
    narrower := [⟨"http://x/N1", "TjE", "N1"⟩, ⟨"http://x/N2", "TjI", "N2"⟩,
                 ⟨"http://x/N3", "TjM", "N3"⟩],
    entityCount := 42 }

/-- Witness for `categoryMap_layout` at `demoCategory`: the first parent node
sits on the left at `x = 52`, two parents are spaced by `128 / 1`, and the
concrete node record evaluates as expected. -/
theorem categoryMap_layout_witness :
    ((categoryMapGraph demoCategory).nodes.getD (1 + 0) defaultMapNode =
      ⟨"p-" ++ ((demoCategory.broader.take 4).get ⟨0, by decide⟩).id,
        ((demoCategory.broader.take 4).get ⟨0, by decide⟩).label,
        ((demoCategory.broader.take 4).get ⟨0, by decide⟩).id, "left", 52,
        (spreadY (demoCategory.broader.take 4).length).getD 0 0⟩) ∧
    ((spreadY 3).getD (0 + 1) 0 - (spreadY 3).getD 0 0 = 128 / ((3 : ℚ) - 1)) ∧
    (spreadY (demoCategory.broader.take 4).length).getD 0 0 = 26 :=
  ⟨(categoryMap_layout demoCategory).2.2.2.2.2.2.1 0 (by decide),
   (categoryMap_layout demoCategory).2.2.2.2.2.2.2.2.2.2.2.2.2 3 0 (by norm_num)
     (by norm_num),
   by
    rw [show (demoCategory.broader.take 4).length = 2 from rfl,
      spreadY_getD_lt 2 0 (by norm_num) (by norm_num)]
    norm_num⟩

/-! ## Type-facets extension (`typeFacets.tsx`) -/

/-- The `cleanId` computation of `TypeFacets`: `categoryId.replace` with a
regular expression matching one or more `?` anchored at the end of the string,
replaced by the empty string — this strips the whole trailing run of `?`
characters. -/
def stripTrailingQs (s : String) : String :=
  String.mk ((s.data.reverse.dropWhile (fun c => c = '?')).reverse)

/-- The facets request URL built by the `TypeFacets` effect:
`API_BASE/api/category/{encodeURIComponent(cleanId)}/facets/types?limit=15`. -/
def typeFacetsRequestUrl (apiBase categoryId : String) : String :=
  apiBase ++ "/api/category/" ++ encodeURIComponentStr (stripTrailingQs categoryId) ++
    "/facets/types?limit=15"

theorem dropWhile_replicate_append (c : Char) (k : Nat) (l : List Char) :
    (List.replicate k c ++ l).dropWhile (fun x => x = c) = l.dropWhile (fun x => x = c) := by
  induction k with
  | zero => rfl
  | succ m ih =>
    rw [List.replicate_succ, List.cons_append, List.dropWhile_cons]
    simp [ih]

/-- C10: the type-facets extension strips every trailing `?` from the category
identifier before building its request, so identifiers differing only in
trailing question marks produce the same facets request URL. -/
theorem typeFacets_stripsTrailingQs (apiBase s : String) (k1 k2 : Nat) :
    stripTrailingQs (s ++ String.mk (List.replicate k1 '?')) = stripTrailingQs s ∧
    typeFacetsRequestUrl apiBase (s ++ String.mk (List.replicate k1 '?')) =
      typeFacetsRequestUrl apiBase (s ++ String.mk (List.replicate k2 '?')) := by
  have key : ∀ k : Nat, stripTrailingQs (s ++ String.mk (List.replicate k '?')) =
      stripTrailingQs s := by
    intro k
    unfold stripTrailingQs
    have hdata : (s ++ String.mk (List.replicate k '?')).data =
        s.data ++ List.replicate k '?' := by
      rw [String.data_append]
    rw [hdata, List.reverse_append, List.reverse_replicate]
    rw [dropWhile_replicate_append]
  refine ⟨key k1, ?_⟩
  unfold typeFacetsRequestUrl
  rw [key k1, key k2]
